import Mathlib

/-!
Shallow embedding of the core of `ttymidi-sysex.c` (M-HT/ttymidi-sysex):
the serial-to-ALSA MIDI decoder (`read_midi_from_serial_port` together with
`parse_midi_command`) and the ALSA-to-serial encoder
(`write_midi_action_to_serial_port` together with `write_bytes_to_serial_port`).

Conventions of the embedding:
* C `unsigned char` values are `Nat` together with an explicit `&&& 0xFF`
  mask (`u8`) at each store, exactly where the C code stores into an
  `unsigned char`.
* The decoder's fixed array `buf[BUF_SIZE]` together with the write position
  `i` is modelled as the list of the committed bytes `buf[0..i-1]`
  (`DecoderState.buf`, whose length is `i`).  A byte read into `buf[i]` that
  is never committed (a real-time byte arriving mid-message) is consequently
  not recorded, matching the fact that the C code overwrites that slot on
  the next read before it is ever inspected.
* ALSA sequencer events (`snd_seq_event_t` as used by the program) are the
  inductive `SeqEvent`; an unknown command, which the C code forwards as an
  event whose type stays `SND_SEQ_EVENT_NONE`, is the constructor `noneEv`.
* Each call of `parse_midi_command` with a non-negative destination port
  results in an ALSA output; emissions record the arguments of each call.
-/

/-- Size of the serial midi buffer (`BUF_SIZE` in the C source). -/
def BUF_SIZE : Nat := 1024

/-- Truncation to an 8-bit value: models a store into a C `unsigned char`. -/
def u8 (n : Nat) : Nat := n &&& 0xFF

/-- ALSA sequencer events as used by the program: the `snd_seq_ev_set_*`
constructors appearing in `parse_midi_command`, the event types consumed by
`write_midi_action_to_serial_port`, and `noneEv` for an event whose type was
left at `SND_SEQ_EVENT_NONE`. -/
inductive SeqEvent where
  | noteOff (channel note velocity : Nat)
  | noteOn (channel note velocity : Nat)
  | keyPress (channel note velocity : Nat)
  | controller (channel param value : Nat)
  | control14 (channel param value : Nat)
  | nonRegParam (channel param value : Nat)
  | regParam (channel param value : Nat)
  | pgmChange (channel value : Nat)
  | chanPress (channel value : Nat)
  | pitchBend (channel : Nat) (value : Int)
  | sysex (payload : List Nat)
  | qframe (value : Nat)
  | songPos (value : Int)
  | songSel (value : Nat)
  | tuneRequest
  | clock
  | tick
  | start
  | cont
  | stop
  | sensing
  | reset
  | portSubscribed
  | portUnsubscribed
  | noneEv
  deriving Repr, DecidableEq

/-- One call of `parse_midi_command`: the `port_out_id` and `port_num`
arguments and the event the call builds.  The C function forwards the event
to the ALSA bus exactly when `port_out_id >= 0`. -/
structure Emission where
  portOutId : Int
  portNum : Nat
  ev : SeqEvent
  deriving Repr, DecidableEq

/-- The event built by `parse_midi_command` from the message bytes
`buf[0..buflen-1]`.  Reads of `buf[1]`/`buf[2]` beyond `buflen` read stale
buffer contents in C; they are modelled by the default `0` and are never
used by a message the decoder actually produces. -/
def parse_midi_command (buf : List Nat) : SeqEvent :=
  let operation := buf.headD 0 &&& 0xF0
  let channel := buf.headD 0 &&& 0x0F
  let param1 := buf.getD 1 0 &&& 0xFF
  let param2 := buf.getD 2 0 &&& 0xFF
  if operation = 0x90 then .noteOn channel param1 param2
  else if operation = 0x80 then .noteOff channel param1 param2
  else if operation = 0xA0 then .keyPress channel param1 param2
  else if operation = 0xB0 then .controller channel param1 param2
  else if operation = 0xC0 then .pgmChange channel param1
  else if operation = 0xD0 then .chanPress channel param1
  else if operation = 0xE0 then
    .pitchBend channel (((param1 &&& 0x7F) + ((param2 &&& 0x7F) <<< 7) : Nat) - 8192 : Int)
  else if operation = 0xF0 then
    match channel with
    | 0x7 => .sysex (buf.drop 1)
    | 0x0 => .sysex buf
    | 0x1 => .qframe param1
    | 0x2 => .songPos (((param1 &&& 0x7F) + ((param2 &&& 0x7F) <<< 7) : Nat) : Int)
    | 0x3 => .songSel param1
    | 0x5 => .sysex buf
    | 0x6 => .tuneRequest
    | 0x8 => .clock
    | 0x9 => .tick
    | 0xA => .start
    | 0xB => .cont
    | 0xC => .stop
    | 0xE => .sensing
    | 0xF => .reset
    | _ => .noneEv
  else .noneEv

/-- State of the inbound decoder loop `read_midi_from_serial_port`:
`buf` is the committed prefix `buf[0..i-1]` of the C array (so the write
position `i` is `buf.length`; `buf.headD 0` is `buf[0]`, which is `0`
exactly when `i = 0`, since the only path to `i = 0` also stores
`buf[0] = 0`), together with `running_status_in`, `bytesleft` and the
selected input port. -/
structure DecoderState where
  buf : List Nat
  runningStatusIn : Nat
  bytesleft : Nat
  selectedPortNum : Nat
  selectedPortId : Int
  deriving Repr, DecidableEq

/-- One result of the inbound poll/read at the top of the inner loop:
either a byte, or a read/poll error (`ret <= 0`, the `SerialIn error`
branch). -/
inductive SerialIn where
  | byte (c : Nat)
  | readError
  deriving Repr, DecidableEq

/-- Realignment at the top of the outer loop (the `buf[0] = ...`, `i = 1`,
`bytesleft = ...` block): restore the running status or mark a split
SysEx continuation, then reset the write position. -/
def realignState (s : DecoderState) : DecoderState :=
  let b0 :=
    if s.runningStatusIn = 0 ∧ (s.buf.headD 0 = 0xF0 ∨ s.buf.headD 0 = 0xF7) ∧
        s.buf.getLastD 0 ≠ 0xF7
    then 0xF7 else s.runningStatusIn
  { s with
    buf := [b0]
    bytesleft :=
      if s.runningStatusIn ≠ 0 then
        if s.runningStatusIn &&& 0xF0 = 0xC0 ∨ s.runningStatusIn &&& 0xF0 = 0xD0 then 2 else 3
      else BUF_SIZE }

/-- The new `selected_port_num` after a Port Select message with data byte
`v`: `0` (unselected) and `0x7F` (all ports) map to port 1. -/
def portSelectNum (v : Nat) : Nat :=
  if v = 0 ∨ v = 0x7F then 1 else v

/-- End of the outer loop, reached when the inner loop exits with
`i >= bytesleft`: the Port Select handling of a completed `0xF5` message,
or `parse_midi_command` on any other completed message, followed by the
realignment of the next outer iteration.  In the `0xF5` branch the emission
carries the previous `selected_port_num` (`prev_port_num` in the C code)
and the `selected_port_id` that is never updated when `nIn = 1`. -/
def finishMessage (nIn : Nat) (pid : Nat → Int) (s : DecoderState) :
    DecoderState × List Emission :=
  if s.buf.headD 0 = 0xF5 then
    if nIn = 1 then
      (realignState { s with selectedPortNum := portSelectNum (s.buf.getD 1 0) },
       [⟨s.selectedPortId, s.selectedPortNum, parse_midi_command s.buf⟩])
    else
      (realignState { s with
          selectedPortNum := portSelectNum (s.buf.getD 1 0)
          selectedPortId :=
            if portSelectNum (s.buf.getD 1 0) ≤ nIn then
              pid (portSelectNum (s.buf.getD 1 0) - 1)
            else -1 }, [])
  else
    (realignState s, [⟨s.selectedPortId, s.selectedPortNum, parse_midi_command s.buf⟩])

/-- The inner loop guard `i < bytesleft`, re-checked after every byte:
finish the message when the position has reached `bytesleft`. -/
def finishIfDone (nIn : Nat) (pid : Nat → Int) (s : DecoderState) :
    DecoderState × List Emission :=
  if s.buf.length ≥ s.bytesleft then finishMessage nIn pid s else (s, [])

/-- The `0xF0` arm of the status-byte switch: System Common and RealTime
messages, dispatched on the low nibble. -/
def systemByte (nIn : Nat) (pid : Nat → Int) (s : DecoderState) (b : Nat) :
    DecoderState × List Emission :=
  match b &&& 0x0F with
  | 0x0 =>
    finishIfDone nIn pid { s with runningStatusIn := 0, buf := [b], bytesleft := BUF_SIZE }
  | 0x1 | 0x3 | 0x4 | 0x5 =>
    finishIfDone nIn pid { s with runningStatusIn := 0, buf := [b], bytesleft := 2 }
  | 0x2 =>
    finishIfDone nIn pid { s with runningStatusIn := 0, buf := [b], bytesleft := 3 }
  | 0x6 =>
    finishIfDone nIn pid { s with runningStatusIn := 0, buf := [b], bytesleft := 1 }
  | 0x7 =>
    if s.buf.headD 0 = 0xF0 ∨ s.buf.headD 0 = 0xF7 then
      finishIfDone nIn pid
        { s with runningStatusIn := 0, buf := s.buf ++ [b], bytesleft := s.buf.length + 1 }
    else
      finishIfDone nIn pid { s with runningStatusIn := 0, buf := [], bytesleft := BUF_SIZE }
  | _ =>
    (s, [⟨s.selectedPortId, s.selectedPortNum, parse_midi_command [b]⟩])

/-- The status-byte branch of the inner loop (`buf[i] & 0x80` set),
switching on the high nibble. -/
def statusAction (nIn : Nat) (pid : Nat → Int) (s : DecoderState) (b : Nat) :
    DecoderState × List Emission :=
  if b &&& 0xF0 = 0xF0 then systemByte nIn pid s b
  else if b &&& 0xF0 = 0xC0 ∨ b &&& 0xF0 = 0xD0 then
    finishIfDone nIn pid { s with runningStatusIn := b, buf := [b], bytesleft := 2 }
  else
    finishIfDone nIn pid { s with runningStatusIn := b, buf := [b], bytesleft := 3 }

/-- The data-byte branch of the inner loop: discard when no status is
active (`buf[0] == 0`), otherwise append and re-check the guard. -/
def dataAction (nIn : Nat) (pid : Nat → Int) (s : DecoderState) (b : Nat) :
    DecoderState × List Emission :=
  if s.buf.headD 0 = 0 then (s, [])
  else finishIfDone nIn pid { s with buf := s.buf ++ [b] }

/-- One iteration of the inner read loop of `read_midi_from_serial_port`:
consume one poll/read result.  `nIn` is `arguments.num_input_ports` and
`pid` is the `port_id` array. -/
def decoderStep (nIn : Nat) (pid : Nat → Int) (s : DecoderState) (inp : SerialIn) :
    DecoderState × List Emission :=
  match inp with
  | .readError => (s, [])
  | .byte c =>
    let b := c &&& 0xFF
    if b &&& 0x80 ≠ 0 then statusAction nIn pid s b else dataAction nIn pid s b

/-- Iterated `decoderStep`, collecting the emissions in order. -/
def runDecoder (nIn : Nat) (pid : Nat → Int) (s : DecoderState) :
    List SerialIn → DecoderState × List Emission
  | [] => (s, [])
  | x :: xs =>
    let r1 := decoderStep nIn pid s x
    let r2 := runDecoder nIn pid r1.1 xs
    (r2.1, r1.2 ++ r2.2)

/-- The decoder state at the first inner-loop read: the initialisation of
`read_midi_from_serial_port` (`running_status_in = 0`, `buf[0] = 0`,
`i = 1`, `selected_port_num = 1`, `selected_port_id = port_id[0]`)
followed by the first realignment, which leaves `buf[0] = 0` and
`bytesleft = BUF_SIZE`. -/
def initDecoder (pid : Nat → Int) : DecoderState :=
  { buf := [0]
    runningStatusIn := 0
    bytesleft := BUF_SIZE
    selectedPortNum := 1
    selectedPortId := pid 0 }

/-- State of the outbound encoder: the globals `running_status_out`,
`output_port_index` (`-1` = unknown/forced resend), `output_port_num` and
`num_output_clients`. -/
structure EncoderState where
  runningStatusOut : Nat
  outputPortIndex : Int
  outputPortNum : Nat
  numOutputClients : Int
  deriving Repr, DecidableEq

/-- One call of `write_bytes_to_serial_port`, tagged by its call site:
the Port Select announcement (`bytes2`, the non-standard `0xF5` frame) or
an ordinary frame (the SysEx write or the `bytes_data` write). -/
inductive Wire where
  | portSelect (bytes : List Nat)
  | frame (bytes : List Nat)
  deriving Repr, DecidableEq

/-- The defensive masking `bytes[1] &= 0x7F; bytes[2] &= 0x7F` performed
before a non-SysEx frame is sent. -/
def maskData : List Nat → List Nat
  | b0 :: b1 :: b2 :: rest => b0 :: (b1 &&& 0x7F) :: (b2 &&& 0x7F) :: rest
  | [b0, b1] => [b0, b1 &&& 0x7F]
  | l => l

/-- The running-status bookkeeping on a non-SysEx frame (the final `else`
of the send block): RealTime keeps the running status, System Common
clears it, a repeated channel-voice status byte is omitted, and any other
channel-voice status is recorded.  Returns the new `running_status_out`
and the bytes passed to `write_bytes_to_serial_port`. -/
def sendMidi (rs : Nat) (bytes : List Nat) : Nat × List Nat :=
  let bytes := maskData bytes
  let b0 := bytes.headD 0
  if 0xF8 ≤ b0 then (rs, bytes)
  else if 0xF0 ≤ b0 then (0, bytes)
  else if b0 = rs then (rs, bytes.drop 1)
  else (b0, bytes)

/-- The send block of `write_midi_action_to_serial_port`
(`if (sysex_len > 0 || bytes_len > 0) { ... }`): emit a Port Select frame
when the event's destination port differs from `output_port_index`, then
write either the SysEx data verbatim (clearing the running status) or the
fixed-format frame through `sendMidi`. -/
def sendFrames (nOut : Nat) (s : EncoderState) (evPortIndex : Nat)
    (sysexData : List Nat) (bytes : List Nat) : EncoderState × List Wire :=
  if sysexData.length > 0 ∨ bytes.length > 0 then
    let r1 : EncoderState × List Wire :=
      if s.outputPortIndex ≠ (evPortIndex : Int) then
        let s1 := { s with outputPortIndex := (evPortIndex : Int), runningStatusOut := 0 }
        (s1, [.portSelect [0xF5,
          if nOut = 1 then u8 s1.outputPortNum else u8 (evPortIndex + 1)]])
      else (s, [])
    if sysexData.length > 0 then
      ({ r1.1 with runningStatusOut := 0 }, r1.2 ++ [.frame sysexData])
    else
      let r2 := sendMidi r1.1.runningStatusOut bytes
      ({ r1.1 with runningStatusOut := r2.1 }, r1.2 ++ [.frame r2.2])
  else (s, [])

/-- The fixed-format byte construction of the event switch in
`write_midi_action_to_serial_port` (event fields are `unsigned char` /
integer ALSA fields; stores into the `bytes` array are `u8`).  Events that
produce no `bytes` frame (SysEx, subscription events, unknown types) give
`[]`. -/
def eventBytes : SeqEvent → List Nat
  | .noteOff ch note vel => [u8 (0x80 + ch), u8 note, u8 vel]
  | .noteOn ch note vel => [u8 (0x90 + ch), u8 note, u8 vel]
  | .keyPress ch note vel => [u8 (0xA0 + ch), u8 note, u8 vel]
  | .controller ch param value => [u8 (0xB0 + ch), u8 param, u8 value]
  | .control14 ch param value =>
    if param < 32 then
      [u8 (0xB0 + ch), u8 param, (value >>> 7) &&& 0x7F, u8 (param + 32), value &&& 0x7F]
    else []
  | .nonRegParam ch param value =>
    [u8 (0xB0 + ch), 0x63, (param >>> 7) &&& 0x7F, 0x62, param &&& 0x7F,
     0x06, (value >>> 7) &&& 0x7F, 0x26, value &&& 0x7F]
  | .regParam ch param value =>
    [u8 (0xB0 + ch), 0x65, (param >>> 7) &&& 0x7F, 0x64, param &&& 0x7F,
     0x06, (value >>> 7) &&& 0x7F, 0x26, value &&& 0x7F]
  | .pgmChange ch value => [u8 (0xC0 + ch), u8 value]
  | .chanPress ch value => [u8 (0xD0 + ch), u8 value]
  | .pitchBend ch v =>
    [u8 (0xE0 + ch), ((v + 8192) % 128).toNat, (((v + 8192) / 128) % 256).toNat]
  | .qframe value => [0xF1, u8 value]
  | .songPos v => [0xF2, ((v + 8192) % 128).toNat, (((v + 8192) / 128) % 256).toNat]
  | .songSel value => [0xF3, u8 value]
  | .tuneRequest => [0xF6]
  | .clock => [0xF8]
  | .tick => [0xF9]
  | .start => [0xFA]
  | .cont => [0xFB]
  | .stop => [0xFC]
  | .sensing => [0xFE]
  | .reset => [0xFF]
  | _ => []

/-- Backwards scan of a SysEx payload for the last embedded `0xF5` at an
index `<= len - 2` (the `for (i = sysex_len-2; i >= 0; i--)` loop). -/
def scanPortSelect (data : List Nat) : Nat → Option Nat
  | 0 => if data.getD 0 0 = 0xF5 then some (data.getD 1 0) else none
  | i + 1 =>
    if data.getD (i + 1) 0 = 0xF5 then some (data.getD (i + 2) 0)
    else scanPortSelect data i

/-- The last embedded Port Select value of a SysEx payload, if any. -/
def lastPortSelect (data : List Nat) : Option Nat :=
  if 2 ≤ data.length then scanPortSelect data (data.length - 2) else none

/-- Whether an event is handled by the default byte-building arms of the
event switch (everything except SysEx and the subscription events, which
have side effects of their own). -/
def plainEvent : SeqEvent → Bool
  | .sysex _ => false
  | .portSubscribed => false
  | .portUnsubscribed => false
  | _ => true

/-- One iteration of the event loop body of
`write_midi_action_to_serial_port`: process one ALSA event destined to
port index `evPortIndex` (`ev->dest.port`).  `nOut` is
`arguments.num_output_ports`. -/
def encodeStep (nOut : Nat) (s : EncoderState) (evPortIndex : Nat) (ev : SeqEvent) :
    EncoderState × List Wire :=
  match ev with
  | .sysex payload =>
    let s1 :=
      if payload.headD 0 = 0xF5 ∧ payload.length = 2 ∧ nOut = 1 then
        { s with outputPortNum := payload.getD 1 0 }
      else if nOut = 1 then
        match lastPortSelect payload with
        | some v => { s with outputPortNum := v }
        | none => s
      else s
    sendFrames nOut s1 evPortIndex payload []
  | .portSubscribed => ({ s with numOutputClients := s.numOutputClients + 1 }, [])
  | .portUnsubscribed =>
    let s1 := { s with numOutputClients := s.numOutputClients - 1 }
    if s1.numOutputClients = 0 then
      ({ s1 with outputPortIndex := -1, outputPortNum := 1 }, [])
    else (s1, [])
  | _ => sendFrames nOut s evPortIndex [] (eventBytes ev)

/-- The encoder state at thread start: the initialisation in
`read_midi_from_alsa` (`output_port_index = -1`, `output_port_num = 1`,
`num_output_clients = 0`) with the zero-initialised global
`running_status_out`. -/
def initEncoder : EncoderState :=
  { runningStatusOut := 0, outputPortIndex := -1, outputPortNum := 1, numOutputClients := 0 }

/-- The frame-level encoding of a single event against a given running
status: the byte construction of the event switch followed by the
running-status send logic (no Port Select handling).  Returns the new
`running_status_out` and the emitted frame bytes. -/
def encodeFrame (rs : Nat) (ev : SeqEvent) : Nat × List Nat :=
  sendMidi rs (eventBytes ev)

/-- One result of a `write()` call on the serial fd: a non-negative byte
count, or a failure that is either `EINTR` or fatal. -/
inductive WriteResult where
  | ok (written : Nat)
  | fail (eintr : Bool)
  deriving Repr, DecidableEq

/-- The retry loop of `write_bytes_to_serial_port`, driven by the list of
successive `write()` results: advance on success, retry on `EINTR`, and on
any other failure clear `running_status_out` and stop.  Returns the final
`running_status_out` and the number of bytes still unwritten. -/
def write_bytes_to_serial_port (rs : Nat) (len : Nat) :
    List WriteResult → Nat × Nat
  | [] => (rs, len)
  | r :: rest =>
    if 0 < len then
      match r with
      | .ok w => write_bytes_to_serial_port rs (len - w) rest
      | .fail eintr =>
        if eintr then write_bytes_to_serial_port rs len rest else (0, len)
    else (rs, len)

/-- Whether the write loop reaches a fatal (non-`EINTR`) failure while
bytes remain to be written. -/
def hitsFatal (len : Nat) : List WriteResult → Bool
  | [] => false
  | .ok w :: rest => decide (0 < len) && hitsFatal (len - w) rest
  | .fail eintr :: rest =>
    decide (0 < len) && (if eintr then hitsFatal len rest else true)

/-! Byte-level arithmetic facts used to evaluate the C bit masks on
symbolic bytes.  All are decided by enumeration over the 8-bit range. -/

set_option maxRecDepth 8192

theorem and255_of_lt (b : Nat) (hb : b < 256) : b &&& 0xFF = b := by
  revert b; decide

theorem and128_zero_iff (b : Nat) (hb : b < 256) : b &&& 0x80 = 0 ↔ b < 128 := by
  revert b; decide

theorem and240_f0_iff (b : Nat) (hb : b < 256) : b &&& 0xF0 = 0xF0 ↔ 0xF0 ≤ b := by
  revert b; decide

theorem and240_cd_iff (b : Nat) (hb : b < 256) :
    (b &&& 0xF0 = 0xC0 ∨ b &&& 0xF0 = 0xD0) ↔ (0xC0 ≤ b ∧ b < 0xE0) := by
  revert b; decide

theorem and15_eq_mod (b : Nat) (hb : b < 256) : b &&& 0x0F = b % 16 := by
  revert b; decide

theorem data_byte_facts (d : Nat) (hd : d < 128) :
    d &&& 0xFF = d ∧ d &&& 0x80 = 0 ∧ d &&& 0x7F = d := by
  revert d; decide

/-! Structural facts about the decoder step. -/

theorem realignState_rs (s : DecoderState) :
    (realignState s).runningStatusIn = s.runningStatusIn := rfl

theorem finishMessage_rs (nIn : Nat) (pid : Nat → Int) (s : DecoderState) :
    ((finishMessage nIn pid s).1).runningStatusIn = s.runningStatusIn := by
  unfold finishMessage
  split
  · split <;> rfl
  · rfl

theorem finishIfDone_rs (nIn : Nat) (pid : Nat → Int) (s : DecoderState) :
    ((finishIfDone nIn pid s).1).runningStatusIn = s.runningStatusIn := by
  unfold finishIfDone
  split
  · exact finishMessage_rs nIn pid s
  · rfl

theorem dataAction_rs (nIn : Nat) (pid : Nat → Int) (s : DecoderState) (b : Nat) :
    ((dataAction nIn pid s b).1).runningStatusIn = s.runningStatusIn := by
  unfold dataAction
  split
  · rfl
  · exact finishIfDone_rs nIn pid _

/-- How one received byte transforms `running_status_in`: data bytes and
real-time bytes leave it alone, channel-voice statuses record the byte,
and the System Common / SysEx family `0xF0`-`0xF7` clears it. -/
theorem decoderStep_rs_char (nIn : Nat) (pid : Nat → Int) (s : DecoderState)
    (b : Nat) (hb : b < 256) :
    ((decoderStep nIn pid s (.byte b)).1).runningStatusIn =
      if b < 0x80 then s.runningStatusIn
      else if b < 0xF0 then b
      else if b < 0xF8 then 0
      else s.runningStatusIn := by
  simp only [decoderStep, and255_of_lt b hb]
  by_cases h1 : b < 128
  · rw [if_neg (by simp [(and128_zero_iff b hb).mpr h1]), if_pos h1]
    exact dataAction_rs nIn pid s b
  · rw [if_pos (by simp [and128_zero_iff b hb]; omega), if_neg h1]
    unfold statusAction
    by_cases h2 : b < 240
    · rw [if_neg (by rw [and240_f0_iff b hb]; omega), if_pos h2]
      split
      · rw [finishIfDone_rs]
      · rw [finishIfDone_rs]
    · rw [if_pos (by rw [and240_f0_iff b hb]; omega), if_neg h2]
      unfold systemByte
      rw [and15_eq_mod b hb]
      interval_cases b <;> (repeat' split) <;> simp_all [finishIfDone_rs]

/-- Inductive invariant of the decoder state: the write position
(`buf.length`, i.e. `i`) is strictly below `bytesleft`, and `bytesleft`
never exceeds the buffer capacity.  Under this invariant every store
`buf[i]` of the inner read loop has `i < BUF_SIZE`. -/
def DecInv (s : DecoderState) : Prop :=
  s.buf.length < s.bytesleft ∧ s.bytesleft ≤ BUF_SIZE

instance (s : DecoderState) : Decidable (DecInv s) := by
  unfold DecInv; infer_instance

theorem realignState_inv (s : DecoderState) : DecInv (realignState s) := by
  simp only [DecInv, realignState, BUF_SIZE, List.length_cons, List.length_nil]
  split <;> (try split) <;> omega

theorem finishMessage_inv (nIn : Nat) (pid : Nat → Int) (s : DecoderState) :
    DecInv ((finishMessage nIn pid s).1) := by
  unfold finishMessage
  split <;> (try split) <;> exact realignState_inv _

theorem finishIfDone_inv (nIn : Nat) (pid : Nat → Int) (s : DecoderState)
    (h : s.bytesleft ≤ BUF_SIZE) : DecInv ((finishIfDone nIn pid s).1) := by
  unfold finishIfDone
  split
  · exact finishMessage_inv nIn pid s
  · exact show DecInv s from ⟨by omega, h⟩

theorem decoderStep_inv (nIn : Nat) (pid : Nat → Int) (s : DecoderState)
    (inp : SerialIn) (h : DecInv s) : DecInv ((decoderStep nIn pid s inp).1) := by
  obtain ⟨h1, h2⟩ := h
  simp only [BUF_SIZE] at h2
  cases inp with
  | readError => exact ⟨h1, h2⟩
  | byte c =>
    unfold decoderStep statusAction systemByte dataAction
    dsimp only
    (repeat' split) <;>
      first
        | exact ⟨h1, h2⟩
        | (apply finishIfDone_inv; simp only [BUF_SIZE]; try omega)

theorem runDecoder_inv (nIn : Nat) (pid : Nat → Int) :
    ∀ (inputs : List SerialIn) (s : DecoderState), DecInv s →
      DecInv ((runDecoder nIn pid s inputs).1) := by
  intro inputs
  induction inputs with
  | nil => intro s h; exact h
  | cons x xs ih =>
    intro s h
    exact ih _ (decoderStep_inv nIn pid s x h)

/-- Shape of `running_status_in`: `0` or a channel-voice status byte. -/
def RSInv (s : DecoderState) : Prop :=
  s.runningStatusIn = 0 ∨ (0x80 ≤ s.runningStatusIn ∧ s.runningStatusIn ≤ 0xEF)

instance (s : DecoderState) : Decidable (RSInv s) := by
  unfold RSInv; infer_instance

/-- C2: feeding a real-time status byte (`0xF8`-`0xFF`) to any decoder
state emits exactly one standalone 1-byte event (the
`parse_midi_command(seq, ..., buf+i, 1)` call) and leaves the whole decoder
state - running status, committed buffer contents, write position and
`bytesleft` - unchanged, so an in-progress channel-voice or SysEx frame
resumes as if the real-time byte had not occurred. -/
theorem c2_realtime_is_transparent_interrupt (nIn : Nat) (pid : Nat → Int)
    (s : DecoderState) (b : Nat) (h1 : 0xF8 ≤ b) (h2 : b ≤ 0xFF) :
    decoderStep nIn pid s (.byte b) =
      (s, [⟨s.selectedPortId, s.selectedPortNum, parse_midi_command [b]⟩]) := by
  have hb : b < 256 := by omega
  have hstat : b &&& 0x80 ≠ 0 := by
    rw [Ne, and128_zero_iff b hb]; omega
  simp only [decoderStep, and255_of_lt b hb]
  rw [if_pos hstat]
  unfold statusAction
  rw [if_pos (by rw [and240_f0_iff b hb]; omega)]
  unfold systemByte
  rw [and15_eq_mod b hb]
  interval_cases b <;> rfl

/-- C2 witness: a Clock byte fed to a decoder state that is mid-way
through a NoteOn frame. -/
theorem c2_realtime_is_transparent_interrupt_witness :
    decoderStep 1 (fun _ => 0) ⟨[0x90, 0x40], 0x90, 3, 1, 0⟩ (.byte 0xF8) =
      (⟨[0x90, 0x40], 0x90, 3, 1, 0⟩, [⟨0, 1, .clock⟩]) := by
  have h := c2_realtime_is_transparent_interrupt 1 (fun _ => 0)
    ⟨[0x90, 0x40], 0x90, 3, 1, 0⟩ 0xF8 (by decide) (by decide)
  rw [h]; rfl

/-- C3: the decoder's running-status invariant.  Feeding any byte
preserves the shape invariant `RSInv` (zero or a channel-voice status in
`0x80`-`0xEF`); any System Common or SysEx status byte (`0xF0`-`0xF7`)
clears `running_status_in`; a real-time byte (`0xF8`-`0xFF`) never alters
it. -/
theorem c3_running_status_invariant (nIn : Nat) (pid : Nat → Int)
    (s : DecoderState) (b : Nat) (hb : b < 256) (hs : RSInv s) :
    RSInv ((decoderStep nIn pid s (.byte b)).1) ∧
    (0xF0 ≤ b → b ≤ 0xF7 →
      ((decoderStep nIn pid s (.byte b)).1).runningStatusIn = 0) ∧
    (0xF8 ≤ b →
      ((decoderStep nIn pid s (.byte b)).1).runningStatusIn =
        s.runningStatusIn) := by
  have hc := decoderStep_rs_char nIn pid s b hb
  refine ⟨?_, ?_, ?_⟩
  · unfold RSInv at hs ⊢
    rw [hc]
    split
    · exact hs
    · split
      · right; omega
      · split
        · left; rfl
        · exact hs
  · intro hf1 hf2
    rw [hc, if_neg (by omega), if_neg (by omega), if_pos (by omega)]
  · intro hr
    rw [hc, if_neg (by omega), if_neg (by omega), if_neg (by omega)]

/-- C3 witness: the invariant transitions at concrete bytes, from a state
with running status `0x90`. -/
theorem c3_running_status_invariant_witness :
    RSInv ((decoderStep 1 (fun _ => 0) ⟨[0x90], 0x90, 3, 1, 0⟩ (.byte 0xF0)).1) ∧
    ((decoderStep 1 (fun _ => 0) ⟨[0x90], 0x90, 3, 1, 0⟩ (.byte 0xF0)).1).runningStatusIn = 0 ∧
    ((decoderStep 1 (fun _ => 0) ⟨[0x90], 0x90, 3, 1, 0⟩ (.byte 0xF8)).1).runningStatusIn = 0x90 := by
  have h1 := c3_running_status_invariant 1 (fun _ => 0) ⟨[0x90], 0x90, 3, 1, 0⟩
    0xF0 (by decide) (by decide)
  have h2 := c3_running_status_invariant 1 (fun _ => 0) ⟨[0x90], 0x90, 3, 1, 0⟩
    0xF8 (by decide) (by decide)
  exact ⟨h1.1, h1.2.1 (by decide) (by decide), h2.2.2 (by decide)⟩

/-- C10: safety of the inbound accumulation buffer.  The initial state
satisfies the inductive invariant `DecInv`; every step of the decoder
preserves it; under it the write position (the index of every `buf[i]`
store of the read loop) is strictly below the capacity `BUF_SIZE = 1024`;
and consequently every state reachable from the initial state keeps the
write position within the buffer, so an over-long SysEx frame is cut off
at the bound instead of being written out of bounds. -/
theorem c10_buffer_writes_in_bounds (nIn : Nat) (pid : Nat → Int) :
    DecInv (initDecoder pid) ∧
    (∀ (s : DecoderState) (inp : SerialIn), DecInv s →
      DecInv ((decoderStep nIn pid s inp).1)) ∧
    (∀ s : DecoderState, DecInv s → s.buf.length < BUF_SIZE) ∧
    (∀ inputs : List SerialIn,
      DecInv ((runDecoder nIn pid (initDecoder pid) inputs).1)) := by
  have hinit : DecInv (initDecoder pid) := by
    constructor <;> simp [initDecoder, BUF_SIZE]
  refine ⟨hinit, fun s inp h => decoderStep_inv nIn pid s inp h, fun s h => ?_, ?_⟩
  · obtain ⟨h1, h2⟩ := h; omega
  · intro inputs
    exact runDecoder_inv nIn pid inputs _ hinit

/-- C10 witness: the invariant holds concretely after an over-long input;
the bound applies at a mid-SysEx state. -/
theorem c10_buffer_writes_in_bounds_witness :
    DecInv (initDecoder (fun _ => 0)) ∧
    DecInv ((decoderStep 1 (fun _ => 0) ⟨[0xF0, 1, 2], 0, BUF_SIZE, 1, 0⟩ (.byte 3)).1) ∧
    (⟨[0xF0, 1, 2], 0, BUF_SIZE, 1, 0⟩ : DecoderState).buf.length < BUF_SIZE := by
  refine ⟨(c10_buffer_writes_in_bounds 1 (fun _ => 0)).1,
    (c10_buffer_writes_in_bounds 1 (fun _ => 0)).2.1 _ _ (by decide),
    (c10_buffer_writes_in_bounds 1 (fun _ => 0)).2.2.1 _ (by decide)⟩

theorem headD_append_of_ne_nil (l : List Nat) (x : Nat) (h : l ≠ []) :
    (l ++ [x]).headD 0 = l.headD 0 := by
  cases l <;> simp_all

theorem runDecoder_append (nIn : Nat) (pid : Nat → Int) (xs ys : List SerialIn) :
    ∀ s, runDecoder nIn pid s (xs ++ ys) =
      ((runDecoder nIn pid (runDecoder nIn pid s xs).1 ys).1,
       (runDecoder nIn pid s xs).2 ++
         (runDecoder nIn pid (runDecoder nIn pid s xs).1 ys).2) := by
  induction xs with
  | nil => intro s; simp [runDecoder]
  | cons x xs ih => intro s; simp [runDecoder, ih]

/-- Accumulation of data bytes into an open SysEx frame: while the buffer
starts with `0xF0`, `bytesleft` is the capacity bound and the capacity is
not reached, data bytes are appended verbatim and nothing is emitted. -/
theorem runDecoder_sysex_accum (nIn : Nat) (pid : Nat → Int) :
    ∀ (payload : List Nat) (s : DecoderState),
      s.buf.headD 0 = 0xF0 → s.bytesleft = BUF_SIZE →
      (∀ b ∈ payload, b < 128) → s.buf.length + payload.length < BUF_SIZE →
      runDecoder nIn pid s (payload.map .byte) =
        ({ s with buf := s.buf ++ payload }, []) := by
  intro payload
  induction payload with
  | nil => intro s h0 hbl hall hlen; simp [runDecoder]
  | cons b bs ih =>
    intro s h0 hbl hall hlen
    simp only [BUF_SIZE] at hlen
    have hb := hall b (List.mem_cons_self b bs)
    obtain ⟨e1, e2, _⟩ := data_byte_facts b hb
    have hne : s.buf ≠ [] := by
      intro hh; rw [hh] at h0; simp at h0
    have hstep : decoderStep nIn pid s (.byte b) =
        ({ s with buf := s.buf ++ [b] }, []) := by
      simp only [decoderStep, e1]
      rw [if_neg (by simp [e2])]
      unfold dataAction
      rw [if_neg (by rw [h0]; decide)]
      unfold finishIfDone
      rw [if_neg (by
        simp only [List.length_append, List.length_cons, List.length_nil, hbl, BUF_SIZE]
        simp at hlen ⊢
        omega)]
    simp only [List.map_cons, runDecoder, hstep]
    rw [ih ({ s with buf := s.buf ++ [b] })
      ((headD_append_of_ne_nil s.buf b hne).trans h0)
      (by simpa using hbl)
      (fun x hx => hall x (by simp [hx]))
      (by simp only [BUF_SIZE]; simp at hlen ⊢; omega)]
    simp

/-- C6: a SysEx frame `F0 <data bytes> F7` fed byte-for-byte to the
decoder from the aligned initial state yields exactly one SysEx event
whose payload is the frame bytes verbatim, start and end markers included;
since the decoder consumes the serial stream one byte per read, the result
is independent of how the frame was split into read chunks.  For the
claim's concrete scenario, `payload = [0x01, 0x02]` gives input
`F0 01 02 F7` and the single event `sysex [F0, 01, 02, F7]`. -/
theorem c6_sysex_roundtrip_verbatim (nIn : Nat) (pid : Nat → Int)
    (payload : List Nat) (hall : ∀ b ∈ payload, b < 128)
    (hlen : payload.length ≤ BUF_SIZE - 2) :
    ((runDecoder nIn pid (initDecoder pid)
        ((0xF0 :: (payload ++ [0xF7])).map SerialIn.byte)).2).map Emission.ev =
      [.sysex (0xF0 :: (payload ++ [0xF7]))] := by
  have h1 : decoderStep nIn pid (initDecoder pid) (.byte 0xF0) =
      (⟨[0xF0], 0, BUF_SIZE, 1, pid 0⟩, []) := rfl
  have haccum := runDecoder_sysex_accum nIn pid payload
    ⟨[0xF0], 0, BUF_SIZE, 1, pid 0⟩ (by simp) (by simp)
    hall (by simp only [BUF_SIZE] at hlen ⊢; simp; omega)
  have hfinal : decoderStep nIn pid ⟨0xF0 :: payload, 0, BUF_SIZE, 1, pid 0⟩
      (.byte 0xF7) =
      (realignState ⟨0xF0 :: (payload ++ [0xF7]), 0, (0xF0 :: payload).length + 1, 1, pid 0⟩,
       [⟨pid 0, 1, .sysex (0xF0 :: (payload ++ [0xF7]))⟩]) := by
    have hred : decoderStep nIn pid ⟨0xF0 :: payload, 0, BUF_SIZE, 1, pid 0⟩
        (.byte 0xF7) =
        finishIfDone nIn pid
          ⟨0xF0 :: (payload ++ [0xF7]), 0, (0xF0 :: payload).length + 1, 1, pid 0⟩ := rfl
    rw [hred]
    unfold finishIfDone
    rw [if_pos (by simp)]
    unfold finishMessage
    rw [if_neg (by simp)]
    simp [parse_midi_command]
  simp only [List.map_cons, List.map_append, List.map_nil, runDecoder, h1]
  rw [runDecoder_append nIn pid _ _ _, haccum]
  simp [runDecoder, hfinal]

/-- C6 witness: the concrete scenario `F0 01 02 F7`. -/
theorem c6_sysex_roundtrip_verbatim_witness :
    ((runDecoder 1 (fun _ => 0) (initDecoder (fun _ => 0))
        ([0xF0, 0x01, 0x02, 0xF7].map SerialIn.byte)).2).map Emission.ev =
      [.sysex [0xF0, 0x01, 0x02, 0xF7]] := by
  have h := c6_sysex_roundtrip_verbatim 1 (fun _ => 0) [0x01, 0x02]
    (by decide) (by decide)
  simpa using h

theorem cv_status_facts : ∀ ch, ch < 16 →
    (0x80 + ch) &&& 0xF0 = 0x80 ∧ (0x90 + ch) &&& 0xF0 = 0x90 ∧
    (0xA0 + ch) &&& 0xF0 = 0xA0 ∧ (0xB0 + ch) &&& 0xF0 = 0xB0 ∧
    (0xC0 + ch) &&& 0xF0 = 0xC0 ∧ (0xD0 + ch) &&& 0xF0 = 0xD0 ∧
    (0xE0 + ch) &&& 0xF0 = 0xE0 ∧
    (0x80 + ch) &&& 0x0F = ch ∧ (0x90 + ch) &&& 0x0F = ch ∧
    (0xA0 + ch) &&& 0x0F = ch ∧ (0xB0 + ch) &&& 0x0F = ch ∧
    (0xC0 + ch) &&& 0x0F = ch ∧ (0xD0 + ch) &&& 0x0F = ch ∧
    (0xE0 + ch) &&& 0x0F = ch := by
  decide

/-- Decoding one 3-byte channel-voice frame from the aligned initial
state: one emission carrying `parse_midi_command` of the frame. -/
theorem decode_cv3 (nIn : Nat) (pid : Nat → Int) (st d1 d2 : Nat)
    (hlt : st < 256) (h2 : st &&& 0x80 ≠ 0) (h3 : st &&& 0xF0 ≠ 0xF0)
    (h4 : ¬(st &&& 0xF0 = 0xC0 ∨ st &&& 0xF0 = 0xD0))
    (hd1 : d1 < 128) (hd2 : d2 < 128) :
    (runDecoder nIn pid (initDecoder pid) [.byte st, .byte d1, .byte d2]).2 =
      [⟨pid 0, 1, parse_midi_command [st, d1, d2]⟩] := by
  have h255 := and255_of_lt st hlt
  have hst0 : st ≠ 0 := by intro hh; subst hh; exact h2 (by decide)
  have hstF5 : st ≠ 0xF5 := by intro hh; subst hh; exact h3 (by decide)
  obtain ⟨d1a, d1b, _⟩ := data_byte_facts d1 hd1
  obtain ⟨d2a, d2b, _⟩ := data_byte_facts d2 hd2
  have e1 : decoderStep nIn pid (initDecoder pid) (.byte st) =
      (⟨[st], st, 3, 1, pid 0⟩, []) := by
    simp only [decoderStep, h255]
    rw [if_pos h2]
    unfold statusAction
    rw [if_neg h3, if_neg h4]
    unfold finishIfDone
    rw [if_neg (by simp)]
    rfl
  have e2 : decoderStep nIn pid ⟨[st], st, 3, 1, pid 0⟩ (.byte d1) =
      (⟨[st, d1], st, 3, 1, pid 0⟩, []) := by
    simp only [decoderStep, d1a]
    rw [if_neg (by simp [d1b])]
    unfold dataAction
    rw [if_neg (by simpa using hst0)]
    unfold finishIfDone
    rw [if_neg (by simp)]
    rfl
  have e3 : decoderStep nIn pid ⟨[st, d1], st, 3, 1, pid 0⟩ (.byte d2) =
      (realignState ⟨[st, d1, d2], st, 3, 1, pid 0⟩,
       [⟨pid 0, 1, parse_midi_command [st, d1, d2]⟩]) := by
    simp only [decoderStep, d2a]
    rw [if_neg (by simp [d2b])]
    unfold dataAction
    rw [if_neg (by simpa using hst0)]
    unfold finishIfDone
    rw [if_pos (by simp)]
    unfold finishMessage
    rw [if_neg (by simpa using hstF5)]
    rfl
  simp only [runDecoder, e1, e2, e3]
  simp

/-- Decoding one 2-byte channel-voice frame (Program Change / Channel
Pressure) from the aligned initial state. -/
theorem decode_cv2 (nIn : Nat) (pid : Nat → Int) (st d1 : Nat)
    (hlt : st < 256) (h2 : st &&& 0x80 ≠ 0) (h3 : st &&& 0xF0 ≠ 0xF0)
    (h4 : st &&& 0xF0 = 0xC0 ∨ st &&& 0xF0 = 0xD0)
    (hd1 : d1 < 128) :
    (runDecoder nIn pid (initDecoder pid) [.byte st, .byte d1]).2 =
      [⟨pid 0, 1, parse_midi_command [st, d1]⟩] := by
  have h255 := and255_of_lt st hlt
  have hst0 : st ≠ 0 := by intro hh; subst hh; exact h2 (by decide)
  have hstF5 : st ≠ 0xF5 := by intro hh; subst hh; exact h3 (by decide)
  obtain ⟨d1a, d1b, _⟩ := data_byte_facts d1 hd1
  have e1 : decoderStep nIn pid (initDecoder pid) (.byte st) =
      (⟨[st], st, 2, 1, pid 0⟩, []) := by
    simp only [decoderStep, h255]
    rw [if_pos h2]
    unfold statusAction
    rw [if_neg h3, if_pos h4]
    unfold finishIfDone
    rw [if_neg (by simp)]
    rfl
  have e2 : decoderStep nIn pid ⟨[st], st, 2, 1, pid 0⟩ (.byte d1) =
      (realignState ⟨[st, d1], st, 2, 1, pid 0⟩,
       [⟨pid 0, 1, parse_midi_command [st, d1]⟩]) := by
    simp only [decoderStep, d1a]
    rw [if_neg (by simp [d1b])]
    unfold dataAction
    rw [if_neg (by simpa using hst0)]
    unfold finishIfDone
    rw [if_pos (by simp)]
    unfold finishMessage
    rw [if_neg (by simpa using hstF5)]
    rfl
  simp only [runDecoder, e1, e2]
  simp

/-- The ChannelVoice events covered by the round-trip property, with
channel and data ranges as on the wire (channel `0..15`, data bytes
`0..127`, pitch-bend value `-8192..8191`). -/
def SupportedChannelVoice : SeqEvent → Prop
  | .noteOff ch p1 p2 => ch < 16 ∧ p1 < 128 ∧ p2 < 128
  | .noteOn ch p1 p2 => ch < 16 ∧ p1 < 128 ∧ p2 < 128
  | .keyPress ch p1 p2 => ch < 16 ∧ p1 < 128 ∧ p2 < 128
  | .controller ch p1 p2 => ch < 16 ∧ p1 < 128 ∧ p2 < 128
  | .pgmChange ch p1 => ch < 16 ∧ p1 < 128
  | .chanPress ch p1 => ch < 16 ∧ p1 < 128
  | .pitchBend ch v => ch < 16 ∧ -8192 ≤ v ∧ v < 8192
  | _ => False

/-- C1: for every supported ChannelVoice event, encoding it with a fresh
outbound running status (`running_status_out = 0`, so the status byte is
emitted) and feeding the resulting frame bytes to the decoder in its
aligned initial state yields exactly that event back on the bus side. -/
theorem c1_channel_voice_roundtrip (nIn : Nat) (pid : Nat → Int) (e : SeqEvent)
    (h : SupportedChannelVoice e) :
    ((runDecoder nIn pid (initDecoder pid)
        ((encodeFrame 0 e).2.map SerialIn.byte)).2).map Emission.ev = [e] := by
  cases e with
  | noteOff ch p1 p2 =>
    obtain ⟨hch, hp1, hp2⟩ := h
    have hlt : 0x80 + ch < 256 := by omega
    have h255 := and255_of_lt (0x80 + ch) hlt
    obtain ⟨d1a, d1b, d1c⟩ := data_byte_facts p1 hp1
    obtain ⟨d2a, d2b, d2c⟩ := data_byte_facts p2 hp2
    have henc : (encodeFrame 0 (SeqEvent.noteOff ch p1 p2)).2 = [0x80 + ch, p1, p2] := by
      simp only [encodeFrame, eventBytes, sendMidi, maskData, u8, h255, d1a, d2a, d1c, d2c,
        List.headD_cons]
      rw [if_neg (by omega), if_neg (by omega), if_neg (by omega)]
    rw [henc]
    simp only [List.map_cons, List.map_nil]
    rw [decode_cv3 nIn pid (0x80 + ch) p1 p2 hlt
      (by simp only [ne_eq, and128_zero_iff _ hlt]; omega)
      (by simp only [ne_eq, and240_f0_iff _ hlt]; omega)
      (by rw [and240_cd_iff _ hlt]; omega) hp1 hp2]
    obtain ⟨f80, f90, fA0, fB0, fC0, fD0, fE0, g80, g90, gA0, gB0, gC0, gD0, gE0⟩ :=
      cv_status_facts ch hch
    simp [parse_midi_command, f80, g80, d1a, d2a]
  | noteOn ch p1 p2 =>
    obtain ⟨hch, hp1, hp2⟩ := h
    have hlt : 0x90 + ch < 256 := by omega
    have h255 := and255_of_lt (0x90 + ch) hlt
    obtain ⟨d1a, d1b, d1c⟩ := data_byte_facts p1 hp1
    obtain ⟨d2a, d2b, d2c⟩ := data_byte_facts p2 hp2
    have henc : (encodeFrame 0 (SeqEvent.noteOn ch p1 p2)).2 = [0x90 + ch, p1, p2] := by
      simp only [encodeFrame, eventBytes, sendMidi, maskData, u8, h255, d1a, d2a, d1c, d2c,
        List.headD_cons]
      rw [if_neg (by omega), if_neg (by omega), if_neg (by omega)]
    rw [henc]
    simp only [List.map_cons, List.map_nil]
    rw [decode_cv3 nIn pid (0x90 + ch) p1 p2 hlt
      (by simp only [ne_eq, and128_zero_iff _ hlt]; omega)
      (by simp only [ne_eq, and240_f0_iff _ hlt]; omega)
      (by rw [and240_cd_iff _ hlt]; omega) hp1 hp2]
    obtain ⟨f80, f90, fA0, fB0, fC0, fD0, fE0, g80, g90, gA0, gB0, gC0, gD0, gE0⟩ :=
      cv_status_facts ch hch
    simp [parse_midi_command, f90, g90, d1a, d2a]
  | keyPress ch p1 p2 =>
    obtain ⟨hch, hp1, hp2⟩ := h
    have hlt : 0xA0 + ch < 256 := by omega
    have h255 := and255_of_lt (0xA0 + ch) hlt
    obtain ⟨d1a, d1b, d1c⟩ := data_byte_facts p1 hp1
    obtain ⟨d2a, d2b, d2c⟩ := data_byte_facts p2 hp2
    have henc : (encodeFrame 0 (SeqEvent.keyPress ch p1 p2)).2 = [0xA0 + ch, p1, p2] := by
      simp only [encodeFrame, eventBytes, sendMidi, maskData, u8, h255, d1a, d2a, d1c, d2c,
        List.headD_cons]
      rw [if_neg (by omega), if_neg (by omega), if_neg (by omega)]
    rw [henc]
    simp only [List.map_cons, List.map_nil]
    rw [decode_cv3 nIn pid (0xA0 + ch) p1 p2 hlt
      (by simp only [ne_eq, and128_zero_iff _ hlt]; omega)
      (by simp only [ne_eq, and240_f0_iff _ hlt]; omega)
      (by rw [and240_cd_iff _ hlt]; omega) hp1 hp2]
    obtain ⟨f80, f90, fA0, fB0, fC0, fD0, fE0, g80, g90, gA0, gB0, gC0, gD0, gE0⟩ :=
      cv_status_facts ch hch
    simp [parse_midi_command, fA0, gA0, d1a, d2a]
  | controller ch p1 p2 =>
    obtain ⟨hch, hp1, hp2⟩ := h
    have hlt : 0xB0 + ch < 256 := by omega
    have h255 := and255_of_lt (0xB0 + ch) hlt
    obtain ⟨d1a, d1b, d1c⟩ := data_byte_facts p1 hp1
    obtain ⟨d2a, d2b, d2c⟩ := data_byte_facts p2 hp2
    have henc : (encodeFrame 0 (SeqEvent.controller ch p1 p2)).2 = [0xB0 + ch, p1, p2] := by
      simp only [encodeFrame, eventBytes, sendMidi, maskData, u8, h255, d1a, d2a, d1c, d2c,
        List.headD_cons]
      rw [if_neg (by omega), if_neg (by omega), if_neg (by omega)]
    rw [henc]
    simp only [List.map_cons, List.map_nil]
    rw [decode_cv3 nIn pid (0xB0 + ch) p1 p2 hlt
      (by simp only [ne_eq, and128_zero_iff _ hlt]; omega)
      (by simp only [ne_eq, and240_f0_iff _ hlt]; omega)
      (by rw [and240_cd_iff _ hlt]; omega) hp1 hp2]
    obtain ⟨f80, f90, fA0, fB0, fC0, fD0, fE0, g80, g90, gA0, gB0, gC0, gD0, gE0⟩ :=
      cv_status_facts ch hch
    simp [parse_midi_command, fB0, gB0, d1a, d2a]
  | pgmChange ch p1 =>
    obtain ⟨hch, hp1⟩ := h
    have hlt : 0xC0 + ch < 256 := by omega
    have h255 := and255_of_lt (0xC0 + ch) hlt
    obtain ⟨d1a, d1b, d1c⟩ := data_byte_facts p1 hp1
    have henc : (encodeFrame 0 (SeqEvent.pgmChange ch p1)).2 = [0xC0 + ch, p1] := by
      simp only [encodeFrame, eventBytes, sendMidi, maskData, u8, h255, d1a, d1c,
        List.headD_cons]
      rw [if_neg (by omega), if_neg (by omega), if_neg (by omega)]
    rw [henc]
    simp only [List.map_cons, List.map_nil]
    rw [decode_cv2 nIn pid (0xC0 + ch) p1 hlt
      (by simp only [ne_eq, and128_zero_iff _ hlt]; omega)
      (by simp only [ne_eq, and240_f0_iff _ hlt]; omega)
      (by rw [and240_cd_iff _ hlt]; omega) hp1]
    obtain ⟨f80, f90, fA0, fB0, fC0, fD0, fE0, g80, g90, gA0, gB0, gC0, gD0, gE0⟩ :=
      cv_status_facts ch hch
    simp [parse_midi_command, fC0, gC0, d1a]
  | chanPress ch p1 =>
    obtain ⟨hch, hp1⟩ := h
    have hlt : 0xD0 + ch < 256 := by omega
    have h255 := and255_of_lt (0xD0 + ch) hlt
    obtain ⟨d1a, d1b, d1c⟩ := data_byte_facts p1 hp1
    have henc : (encodeFrame 0 (SeqEvent.chanPress ch p1)).2 = [0xD0 + ch, p1] := by
      simp only [encodeFrame, eventBytes, sendMidi, maskData, u8, h255, d1a, d1c,
        List.headD_cons]
      rw [if_neg (by omega), if_neg (by omega), if_neg (by omega)]
    rw [henc]
    simp only [List.map_cons, List.map_nil]
    rw [decode_cv2 nIn pid (0xD0 + ch) p1 hlt
      (by simp only [ne_eq, and128_zero_iff _ hlt]; omega)
      (by simp only [ne_eq, and240_f0_iff _ hlt]; omega)
      (by rw [and240_cd_iff _ hlt]; omega) hp1]
    obtain ⟨f80, f90, fA0, fB0, fC0, fD0, fE0, g80, g90, gA0, gB0, gC0, gD0, gE0⟩ :=
      cv_status_facts ch hch
    simp [parse_midi_command, fD0, gD0, d1a]
  | pitchBend ch v =>
    obtain ⟨hch, hv1, hv2⟩ := h
    have hlt : 0xE0 + ch < 256 := by omega
    have h255 := and255_of_lt (0xE0 + ch) hlt
    have hd1 : ((v + 8192) % 128).toNat < 128 := by omega
    have hd2 : (((v + 8192) / 128) % 256).toNat < 128 := by omega
    obtain ⟨d1a, d1b, d1c⟩ := data_byte_facts _ hd1
    obtain ⟨d2a, d2b, d2c⟩ := data_byte_facts _ hd2
    have henc : (encodeFrame 0 (SeqEvent.pitchBend ch v)).2 =
        [0xE0 + ch, ((v + 8192) % 128).toNat, (((v + 8192) / 128) % 256).toNat] := by
      simp only [encodeFrame, eventBytes, sendMidi, maskData, u8, h255, d1c, d2c,
        List.headD_cons]
      rw [if_neg (by omega), if_neg (by omega), if_neg (by omega)]
    rw [henc]
    simp only [List.map_cons, List.map_nil]
    rw [decode_cv3 nIn pid (0xE0 + ch) _ _ hlt
      (by simp only [ne_eq, and128_zero_iff _ hlt]; omega)
      (by simp only [ne_eq, and240_f0_iff _ hlt]; omega)
      (by rw [and240_cd_iff _ hlt]; omega) hd1 hd2]
    obtain ⟨f80, f90, fA0, fB0, fC0, fD0, fE0, g80, g90, gA0, gB0, gC0, gD0, gE0⟩ :=
      cv_status_facts ch hch
    simp [parse_midi_command, fE0, gE0, d1a, d2a, d1c, d2c, Nat.shiftLeft_eq]
    omega
  | sysex p => exact h.elim
  | control14 a b c => exact h.elim
  | nonRegParam a b c => exact h.elim
  | regParam a b c => exact h.elim
  | qframe a => exact h.elim
  | songPos a => exact h.elim
  | songSel a => exact h.elim
  | tuneRequest => exact h.elim
  | clock => exact h.elim
  | tick => exact h.elim
  | start => exact h.elim
  | cont => exact h.elim
  | stop => exact h.elim
  | sensing => exact h.elim
  | reset => exact h.elim
  | portSubscribed => exact h.elim
  | portUnsubscribed => exact h.elim
  | noneEv => exact h.elim

/-- C1 witness: a concrete NoteOn and a concrete PitchBend round-trip. -/
theorem c1_channel_voice_roundtrip_witness :
    ((runDecoder 1 (fun _ => 0) (initDecoder (fun _ => 0))
        ((encodeFrame 0 (.noteOn 3 0x40 0x7F)).2.map SerialIn.byte)).2).map Emission.ev =
      [.noteOn 3 0x40 0x7F] ∧
    ((runDecoder 1 (fun _ => 0) (initDecoder (fun _ => 0))
        ((encodeFrame 0 (.pitchBend 2 (-5))).2.map SerialIn.byte)).2).map Emission.ev =
      [.pitchBend 2 (-5)] := by
  constructor
  · exact c1_channel_voice_roundtrip 1 (fun _ => 0) (.noteOn 3 0x40 0x7F)
      (by refine ⟨?_, ?_, ?_⟩ <;> decide)
  · exact c1_channel_voice_roundtrip 1 (fun _ => 0) (.pitchBend 2 (-5))
      (by refine ⟨?_, ?_, ?_⟩ <;> decide)

/-! Structural facts about the encoder send path. -/

theorem maskData_headD (l : List Nat) : (maskData l).headD 0 = l.headD 0 := by
  rcases l with _ | ⟨a, _ | ⟨b, _ | ⟨c, t⟩⟩⟩ <;> rfl

theorem sendMidi_cv (rs : Nat) (bytes : List Nat)
    (h1 : 0x80 ≤ bytes.headD 0) (h2 : bytes.headD 0 < 0xF0) :
    sendMidi rs bytes =
      if bytes.headD 0 = rs then (rs, (maskData bytes).drop 1)
      else (bytes.headD 0, maskData bytes) := by
  simp only [sendMidi, maskData_headD]
  rw [if_neg (by omega), if_neg (by omega)]

theorem sendMidi_cv_rs (rs : Nat) (bytes : List Nat)
    (h1 : 0x80 ≤ bytes.headD 0) (h2 : bytes.headD 0 < 0xF0) :
    (sendMidi rs bytes).1 = bytes.headD 0 := by
  rw [sendMidi_cv rs bytes h1 h2]
  split
  · rename_i hh; rw [hh]
  · rfl

theorem sendMidi_system_common (rs : Nat) (bytes : List Nat)
    (h1 : 0xF0 ≤ bytes.headD 0) (h2 : bytes.headD 0 < 0xF8) :
    sendMidi rs bytes = (0, maskData bytes) := by
  simp only [sendMidi, maskData_headD]
  rw [if_neg (by omega), if_pos (by omega)]

theorem sendMidi_realtime (rs : Nat) (bytes : List Nat)
    (h1 : 0xF8 ≤ bytes.headD 0) :
    sendMidi rs bytes = (rs, maskData bytes) := by
  simp only [sendMidi, maskData_headD]
  rw [if_pos (by omega)]

theorem encodeStep_plain (nOut : Nat) (s : EncoderState) (p : Nat) (ev : SeqEvent)
    (h : plainEvent ev = true) :
    encodeStep nOut s p ev = sendFrames nOut s p [] (eventBytes ev) := by
  cases ev <;> first | rfl | simp [plainEvent] at h

theorem sendFrames_same_port (nOut : Nat) (s : EncoderState) (p : Nat)
    (bytes : List Nat) (hp : s.outputPortIndex = (p : Int)) (hb : bytes ≠ []) :
    sendFrames nOut s p [] bytes =
      ({ s with runningStatusOut := (sendMidi s.runningStatusOut bytes).1 },
       [.frame (sendMidi s.runningStatusOut bytes).2]) := by
  unfold sendFrames
  rw [if_neg (show ¬(s.outputPortIndex ≠ (p : Int)) from fun hh => hh hp)]
  rw [if_pos (show ([] : List Nat).length > 0 ∨ bytes.length > 0 from
    Or.inr (List.length_pos.mpr hb))]
  rw [if_neg (show ¬(([] : List Nat).length > 0) by simp)]
  rfl

theorem sendFrames_sysex_same_port (nOut : Nat) (s : EncoderState) (p : Nat)
    (payload : List Nat) (hp : s.outputPortIndex = (p : Int)) (hne : payload ≠ []) :
    sendFrames nOut s p payload [] =
      ({ s with runningStatusOut := 0 }, [.frame payload]) := by
  unfold sendFrames
  rw [if_neg (show ¬(s.outputPortIndex ≠ (p : Int)) from fun hh => hh hp)]
  rw [if_pos (show payload.length > 0 ∨ ([] : List Nat).length > 0 from
    Or.inl (List.length_pos.mpr hne))]
  rw [if_pos (show payload.length > 0 from List.length_pos.mpr hne)]
  rfl

theorem sendFrames_sysex_rs (nOut : Nat) (s : EncoderState) (p : Nat)
    (payload : List Nat) (hne : payload ≠ []) :
    (sendFrames nOut s p payload []).1.runningStatusOut = 0 := by
  unfold sendFrames
  rw [if_pos (show payload.length > 0 ∨ ([] : List Nat).length > 0 from
    Or.inl (List.length_pos.mpr hne))]
  rw [if_pos (show payload.length > 0 from List.length_pos.mpr hne)]

theorem sendFrames_syscommon_rs (nOut : Nat) (s : EncoderState) (p : Nat)
    (bytes : List Nat) (h1 : 0xF0 ≤ bytes.headD 0) (h2 : bytes.headD 0 < 0xF8) :
    (sendFrames nOut s p [] bytes).1.runningStatusOut = 0 := by
  have hne : bytes ≠ [] := by intro hh; rw [hh] at h1; simp at h1
  unfold sendFrames
  rw [if_pos (show ([] : List Nat).length > 0 ∨ bytes.length > 0 from
    Or.inr (List.length_pos.mpr hne))]
  rw [if_neg (show ¬(([] : List Nat).length > 0) by simp)]
  rw [sendMidi_system_common _ bytes h1 h2]

/-- The SysEx arm of the encoder on a state already announced for port
`p`: the embedded-Port-Select bookkeeping may change `output_port_num`,
then the payload is written verbatim with the running status cleared. -/
theorem encodeStep_sysex_char (nOut : Nat) (s : EncoderState) (p : Nat)
    (payload : List Nat) (hne : payload ≠ []) (hp : s.outputPortIndex = (p : Int)) :
    ∃ s2 : EncoderState,
      encodeStep nOut s p (.sysex payload) = (s2, [.frame payload]) ∧
      s2.runningStatusOut = 0 ∧ s2.outputPortIndex = (p : Int) := by
  simp only [encodeStep]
  repeat' split
  all_goals rw [sendFrames_sysex_same_port nOut _ p payload (by simpa using hp) hne]
  all_goals exact ⟨_, rfl, rfl, by simpa using hp⟩

theorem write_fatal_result : ∀ (results : List WriteResult) (rs len : Nat),
    hitsFatal len results = true →
    (write_bytes_to_serial_port rs len results).1 = 0 ∧
    0 < (write_bytes_to_serial_port rs len results).2 := by
  intro results
  induction results with
  | nil => intro rs len h; simp [hitsFatal] at h
  | cons r rest ih =>
    intro rs len h
    cases r with
    | ok w =>
      simp only [hitsFatal, Bool.and_eq_true, decide_eq_true_eq] at h
      unfold write_bytes_to_serial_port
      rw [if_pos h.1]
      exact ih _ _ h.2
    | fail eintr =>
      simp only [hitsFatal, Bool.and_eq_true, decide_eq_true_eq] at h
      unfold write_bytes_to_serial_port
      rw [if_pos h.1]
      cases eintr with
      | true =>
        have h2 := h.2
        simp at h2
        exact ih _ _ h2
      | false => exact ⟨rfl, h.1⟩

/-- C4: running-status compression in the outbound encoder, on a stream of
events for the already-announced port `p`.  After a ChannelVoice event `e`
the running status holds its status byte and an immediately following
ChannelVoice event `e'` with the same status byte is sent without it; a
System Common event or a SysEx frame in between clears the running status,
so `e'` is then re-sent with its status byte; a RealTime event in between
leaves the running status alone, so `e'` is still compressed. -/
theorem c4_running_status_compression (nOut : Nat) (s : EncoderState) (p : Nat)
    (e e' : SeqEvent) (he : plainEvent e = true) (he' : plainEvent e' = true)
    (hst : (eventBytes e').headD 0 = (eventBytes e).headD 0)
    (h1 : 0x80 ≤ (eventBytes e).headD 0) (h2 : (eventBytes e).headD 0 < 0xF0)
    (hp : s.outputPortIndex = (p : Int)) :
    ((encodeStep nOut s p e).1.runningStatusOut = (eventBytes e).headD 0 ∧
     (encodeStep nOut (encodeStep nOut s p e).1 p e').2 =
       [.frame ((maskData (eventBytes e')).drop 1)]) ∧
    (∀ e2, plainEvent e2 = true → 0xF0 ≤ (eventBytes e2).headD 0 →
        (eventBytes e2).headD 0 < 0xF8 →
      (encodeStep nOut (encodeStep nOut s p e).1 p e2).1.runningStatusOut = 0 ∧
      (encodeStep nOut (encodeStep nOut (encodeStep nOut s p e).1 p e2).1 p e').2 =
        [.frame (maskData (eventBytes e'))]) ∧
    (∀ payload : List Nat, payload ≠ [] →
      (encodeStep nOut (encodeStep nOut s p e).1 p (.sysex payload)).1.runningStatusOut = 0 ∧
      (encodeStep nOut
          (encodeStep nOut (encodeStep nOut s p e).1 p (.sysex payload)).1 p e').2 =
        [.frame (maskData (eventBytes e'))]) ∧
    (∀ e2, plainEvent e2 = true → 0xF8 ≤ (eventBytes e2).headD 0 →
      (encodeStep nOut (encodeStep nOut s p e).1 p e2).1.runningStatusOut =
        (eventBytes e).headD 0 ∧
      (encodeStep nOut (encodeStep nOut (encodeStep nOut s p e).1 p e2).1 p e').2 =
        [.frame ((maskData (eventBytes e')).drop 1)]) := by
  have hbe : eventBytes e ≠ [] := by intro hh; rw [hh] at h1; simp at h1
  have h1' : 0x80 ≤ (eventBytes e').headD 0 := by rw [hst]; exact h1
  have h2' : (eventBytes e').headD 0 < 0xF0 := by rw [hst]; exact h2
  have hbe' : eventBytes e' ≠ [] := by intro hh; rw [hh] at h1'; simp at h1'
  have hs1 : encodeStep nOut s p e =
      ({ s with runningStatusOut := (eventBytes e).headD 0 },
       [.frame (sendMidi s.runningStatusOut (eventBytes e)).2]) := by
    rw [encodeStep_plain nOut s p e he, sendFrames_same_port nOut s p _ hp hbe,
      sendMidi_cv_rs _ _ h1 h2]
  have hcomp : ∀ t : EncoderState, t.runningStatusOut = (eventBytes e).headD 0 →
      t.outputPortIndex = (p : Int) →
      (encodeStep nOut t p e').2 = [.frame ((maskData (eventBytes e')).drop 1)] := by
    intro t ht hpt
    rw [encodeStep_plain nOut t p e' he', sendFrames_same_port nOut t p _ hpt hbe',
      sendMidi_cv _ _ h1' h2']
    rw [if_pos (by rw [hst, ht])]
  have hfull : ∀ t : EncoderState, t.runningStatusOut = 0 →
      t.outputPortIndex = (p : Int) →
      (encodeStep nOut t p e').2 = [.frame (maskData (eventBytes e'))] := by
    intro t ht hpt
    rw [encodeStep_plain nOut t p e' he', sendFrames_same_port nOut t p _ hpt hbe',
      sendMidi_cv _ _ h1' h2']
    rw [if_neg (by rw [hst, ht]; omega)]
  refine ⟨⟨by rw [hs1], ?_⟩, ?_, ?_, ?_⟩
  · exact hcomp _ (by rw [hs1]) (by rw [hs1]; exact hp)
  · intro e2 hp2 hf1 hf2
    have hbe2 : eventBytes e2 ≠ [] := by intro hh; rw [hh] at hf1; simp at hf1
    have hs2 : encodeStep nOut (encodeStep nOut s p e).1 p e2 =
        ({ (encodeStep nOut s p e).1 with runningStatusOut := 0 },
         [.frame (maskData (eventBytes e2))]) := by
      rw [encodeStep_plain _ _ _ _ hp2,
        sendFrames_same_port nOut _ p _ (by rw [hs1]; exact hp) hbe2,
        sendMidi_system_common _ _ hf1 hf2]
    exact ⟨by rw [hs2], hfull _ (by rw [hs2]) (by rw [hs2, hs1]; exact hp)⟩
  · intro payload hne
    obtain ⟨s2, he2, hrs2, hidx2⟩ := encodeStep_sysex_char nOut
      (encodeStep nOut s p e).1 p payload hne (by rw [hs1]; exact hp)
    exact ⟨by rw [he2]; exact hrs2, by rw [he2]; exact hfull s2 hrs2 hidx2⟩
  · intro e2 hp2 hf1
    have hbe2 : eventBytes e2 ≠ [] := by intro hh; rw [hh] at hf1; simp at hf1
    have hs2 : encodeStep nOut (encodeStep nOut s p e).1 p e2 =
        ({ (encodeStep nOut s p e).1 with
            runningStatusOut := (encodeStep nOut s p e).1.runningStatusOut },
         [.frame (maskData (eventBytes e2))]) := by
      rw [encodeStep_plain _ _ _ _ hp2,
        sendFrames_same_port nOut _ p _ (by rw [hs1]; exact hp) hbe2,
        sendMidi_realtime _ _ hf1]
    refine ⟨by rw [hs2, hs1], hcomp _ (by rw [hs2, hs1]) (by rw [hs2, hs1]; exact hp)⟩

/-- C4 witness: a NoteOn on channel 2 twice in a row, from a state already
announced for port 0 with no running status. -/
theorem c4_running_status_compression_witness :
    (encodeStep 1 ⟨0, 0, 1, 1⟩ 0 (.noteOn 2 3 4)).1.runningStatusOut =
      (eventBytes (.noteOn 2 3 4)).headD 0 ∧
    (encodeStep 1 (encodeStep 1 ⟨0, 0, 1, 1⟩ 0 (.noteOn 2 3 4)).1 0 (.noteOn 2 3 4)).2 =
      [.frame ((maskData (eventBytes (.noteOn 2 3 4))).drop 1)] :=
  (c4_running_status_compression 1 ⟨0, 0, 1, 1⟩ 0 (.noteOn 2 3 4) (.noteOn 2 3 4)
    rfl rfl rfl (by decide) (by decide) rfl).1

/-- C5 counterexample: sending a RealTime frame (Clock) does not reset
`running_status_out` - the code keeps it (`bytes[0] >= 0xF8` branch), so
the claim's list "system-common/real-time/sysex" is wrong about real-time
frames. -/
theorem c5_counterexample_realtime_keeps_running_status :
    (encodeStep 1 ⟨0x90, 0, 1, 1⟩ 0 .clock).2 = [.frame [0xF8]] ∧
    (encodeStep 1 ⟨0x90, 0, 1, 1⟩ 0 .clock).1.runningStatusOut = 0x90 := by
  constructor <;> rfl

/-- C5 (amended): `running_status_out` is reset to 0 whenever a
system-common frame or a SysEx frame is sent, and whenever a transport
write fails with an error other than an interrupted system call; a
real-time frame leaves it unchanged. -/
theorem c5_running_status_out_resets (nOut : Nat) (s : EncoderState) (p : Nat) :
    (∀ e, plainEvent e = true → 0xF0 ≤ (eventBytes e).headD 0 →
        (eventBytes e).headD 0 < 0xF8 →
      (encodeStep nOut s p e).1.runningStatusOut = 0) ∧
    (∀ payload : List Nat, payload ≠ [] →
      (encodeStep nOut s p (.sysex payload)).1.runningStatusOut = 0) ∧
    (∀ e, plainEvent e = true → 0xF8 ≤ (eventBytes e).headD 0 →
        s.outputPortIndex = (p : Int) →
      (encodeStep nOut s p e).1.runningStatusOut = s.runningStatusOut) ∧
    (∀ (rs len : Nat) (results : List WriteResult), hitsFatal len results = true →
      (write_bytes_to_serial_port rs len results).1 = 0) := by
  refine ⟨?_, ?_, ?_, ?_⟩
  · intro e hpe hf1 hf2
    rw [encodeStep_plain _ _ _ _ hpe]
    exact sendFrames_syscommon_rs nOut s p _ hf1 hf2
  · intro payload hne
    simp only [encodeStep]
    repeat' split
    all_goals exact sendFrames_sysex_rs nOut _ p payload hne
  · intro e hpe hf1 hp
    have hbe : eventBytes e ≠ [] := by intro hh; rw [hh] at hf1; simp at hf1
    rw [encodeStep_plain _ _ _ _ hpe, sendFrames_same_port nOut s p _ hp hbe,
      sendMidi_realtime _ _ hf1]
  · intro rs len results h
    exact (write_fatal_result results rs len h).1

/-- C5 witness: the three reset cases and the preserved real-time case at
concrete inputs. -/
theorem c5_running_status_out_resets_witness :
    (encodeStep 1 ⟨0x90, 0, 1, 1⟩ 0 .tuneRequest).1.runningStatusOut = 0 ∧
    (encodeStep 1 ⟨0x90, 0, 1, 1⟩ 0 (.sysex [0xF0, 0xF7])).1.runningStatusOut = 0 ∧
    (encodeStep 1 ⟨0x90, 0, 1, 1⟩ 0 .clock).1.runningStatusOut =
      (⟨0x90, 0, 1, 1⟩ : EncoderState).runningStatusOut ∧
    (write_bytes_to_serial_port 7 5 [.fail false]).1 = 0 :=
  ⟨(c5_running_status_out_resets 1 ⟨0x90, 0, 1, 1⟩ 0).1 .tuneRequest rfl
      (by decide) (by decide),
   (c5_running_status_out_resets 1 ⟨0x90, 0, 1, 1⟩ 0).2.1 [0xF0, 0xF7] (by decide),
   (c5_running_status_out_resets 1 ⟨0x90, 0, 1, 1⟩ 0).2.2.1 .clock rfl
      (by decide) (by decide),
   (c5_running_status_out_resets 1 ⟨0x90, 0, 1, 1⟩ 0).2.2.2 7 5 [.fail false] (by decide)⟩

/-- C7 counterexample: with a single configured output port, the very
first event after thread start (`output_port_index = -1`) is preceded by a
Port Select frame `F5 01` on the serial line, so the port layer is not a
no-op pass-through. -/
theorem c7_counterexample_portselect_with_one_port :
    (encodeStep 1 initEncoder 0 (.noteOn 0 0x40 0x7F)).2 =
      [.portSelect [0xF5, 0x01], .frame [0x90, 0x40, 0x7F]] := by
  rfl

theorem sendFrames_no_portselect (nOut : Nat) (s : EncoderState) (p : Nat)
    (sy bys : List Nat) (hp : s.outputPortIndex = (p : Int)) :
    ∀ w ∈ (sendFrames nOut s p sy bys).2, ∀ bs : List Nat,
      w ≠ Wire.portSelect bs := by
  unfold sendFrames
  rw [if_neg (show ¬(s.outputPortIndex ≠ (p : Int)) from fun hh => hh hp)]
  intro w hw bs
  split at hw
  · split at hw
    · simp at hw
      subst hw
      simp
    · simp at hw
      subst hw
      simp
  · simp at hw

/-- C7 (amended): with one configured output port, a Port Select frame is
emitted only when the event's destination port index differs from the
last-announced `output_port_index` (as after startup, an idle reset or an
unsubscribe reset); while the announced index matches the event's port,
no write of the encoder is a Port Select frame. -/
theorem c7_no_portselect_in_steady_state (s : EncoderState) (p : Nat)
    (ev : SeqEvent) (hp : s.outputPortIndex = (p : Int)) :
    ∀ w ∈ (encodeStep 1 s p ev).2, ∀ bs : List Nat, w ≠ Wire.portSelect bs := by
  cases ev
  case sysex payload =>
    simp only [encodeStep]
    repeat' split
    all_goals exact sendFrames_no_portselect 1 _ p _ _ (by simpa using hp)
  case portSubscribed =>
    intro w hw bs
    simp [encodeStep] at hw
  case portUnsubscribed =>
    intro w hw bs
    simp only [encodeStep] at hw
    split at hw <;> simp at hw
  all_goals
    rw [encodeStep_plain _ _ _ _ (by simp [plainEvent])]
    exact sendFrames_no_portselect 1 s p _ _ hp

/-- C7 witness: in steady state on port 0, the emitted NoteOn frame is not
a Port Select frame. -/
theorem c7_no_portselect_in_steady_state_witness :
    Wire.frame [0x90, 0x40, 0x7F] ≠ Wire.portSelect [0xF5, 0x01] :=
  c7_no_portselect_in_steady_state ⟨0, 0, 1, 1⟩ 0 (.noteOn 0 0x40 0x7F) rfl
    (Wire.frame [0x90, 0x40, 0x7F]) (by decide) [0xF5, 0x01]

/-- C8 counterexample: with one configured input port, a received Port
Select frame `F5 02` IS delivered to the bus - `parse_midi_command` is
called on it and forwards it as a SysEx event on `port_id[0]`
(`port_out_id = 0 >= 0`), while `selected_port_num` is updated to 2. -/
theorem c8_counterexample_portselect_forwarded_with_one_port :
    runDecoder 1 (fun _ => 0) (initDecoder (fun _ => 0))
        [.byte 0xF5, .byte 0x02] =
      (⟨[0], 0, BUF_SIZE, 2, 0⟩, [⟨0, 1, .sysex [0xF5, 0x02]⟩]) := by
  rfl

/-- C8 (amended): a received serial Port Select frame `F5 v` always
updates `selected_port_num` (to 1 for `v = 0` or `v = 0x7F`, else to `v`);
when more than one input port is configured it is consumed without any
delivery to the bus and `selected_port_id` is re-resolved; when exactly
one input port is configured the frame IS forwarded to the Bus Adapter as
a SysEx event (Port Select tunnelling) and `selected_port_id` stays
unchanged. -/
theorem c8_portselect_inbound_handling (nIn : Nat) (pid : Nat → Int)
    (pnum : Nat) (pid0 : Int) (v : Nat) (hv : v < 128) :
    decoderStep nIn pid ⟨[0xF5], 0, 2, pnum, pid0⟩ (.byte v) =
      (⟨[0], 0, BUF_SIZE, portSelectNum v,
         if nIn = 1 then pid0
         else if portSelectNum v ≤ nIn then pid (portSelectNum v - 1) else -1⟩,
       if nIn = 1 then [⟨pid0, pnum, .sysex [0xF5, v]⟩] else []) := by
  obtain ⟨va, vb, _⟩ := data_byte_facts v hv
  have hred : decoderStep nIn pid ⟨[0xF5], 0, 2, pnum, pid0⟩ (.byte v) =
      finishMessage nIn pid ⟨[0xF5, v], 0, 2, pnum, pid0⟩ := by
    simp only [decoderStep, va]
    rw [if_neg (by simp [vb])]
    unfold dataAction
    rw [if_neg (by simp)]
    unfold finishIfDone
    rw [if_pos (by simp)]
    rfl
  rw [hred]
  unfold finishMessage
  rw [if_pos (by simp)]
  have ha : (0xF5 : Nat) &&& 0xF0 = 0xF0 := by decide
  have hb2 : (0xF5 : Nat) &&& 0x0F = 5 := by decide
  by_cases hn : nIn = 1
  · subst hn
    simp [realignState, parse_midi_command, BUF_SIZE, va, ha, hb2]
  · simp [hn, realignState, BUF_SIZE]

/-- C8 witness: with four input ports, `F5 03` selects port 3, resolves
`selected_port_id` through `port_id`, and delivers nothing to the bus. -/
theorem c8_portselect_inbound_handling_witness :
    decoderStep 4 (fun k => (k : Int)) ⟨[0xF5], 0, 2, 1, 0⟩ (.byte 0x03) =
      (⟨[0], 0, BUF_SIZE, 3, 2⟩, []) := by
  have h := c8_portselect_inbound_handling 4 (fun k => (k : Int)) 1 0 3 (by decide)
  simpa [portSelectNum] using h

/-- C9 counterexample: a read error on the inbound side does not abort the
current frame and does not reset `running_status_in` - the loop only
reports and retries, leaving the decoder state (here mid-NoteOn, running
status `0x90`) entirely unchanged. -/
theorem c9_counterexample_read_error_keeps_state :
    decoderStep 1 (fun _ => 0) ⟨[0x90, 0x40], 0x90, 3, 1, 0⟩ .readError =
      (⟨[0x90, 0x40], 0x90, 3, 1, 0⟩, []) ∧
    (⟨[0x90, 0x40], 0x90, 3, 1, 0⟩ : DecoderState).runningStatusIn ≠ 0 := by
  exact ⟨rfl, by decide⟩

/-- C9 (amended): on a fatal (non-`EINTR`) write failure the outbound
direction clears `running_status_out` and stops the current frame's write
loop with bytes still unwritten, and processing continues; on an inbound
read/poll error the decoder state is left entirely unchanged (the frame is
not aborted and `running_status_in` is untouched) and the loop continues;
neither direction terminates on a single I/O error. -/
theorem c9_io_error_handling (nIn : Nat) (pid : Nat → Int) :
    (∀ (rs len : Nat) (results : List WriteResult),
      hitsFatal len results = true →
      (write_bytes_to_serial_port rs len results).1 = 0 ∧
      0 < (write_bytes_to_serial_port rs len results).2) ∧
    (∀ s : DecoderState, decoderStep nIn pid s .readError = (s, [])) := by
  exact ⟨fun rs len results h => write_fatal_result results rs len h,
    fun s => rfl⟩

/-- C9 witness: a fatal write failure with 5 bytes pending, and a read
error at the initial decoder state. -/
theorem c9_io_error_handling_witness :
    ((write_bytes_to_serial_port 7 5 [.fail false]).1 = 0 ∧
      0 < (write_bytes_to_serial_port 7 5 [.fail false]).2) ∧
    decoderStep 1 (fun _ => 0) (initDecoder (fun _ => 0)) .readError =
      (initDecoder (fun _ => 0), []) :=
  ⟨(c9_io_error_handling 1 (fun _ => 0)).1 7 5 [.fail false] (by decide),
   (c9_io_error_handling 1 (fun _ => 0)).2 (initDecoder (fun _ => 0))⟩
